import Mathlib

/-!
Verification of the python_json_parser repository (src/lexer.py, src/parser_.py,
src/__init__.py) against its natural-language specification.

Modelling conventions:
* Python strings are Lean `String`s / `List Char`s.
* Python numbers (int and float) are modelled uniformly as exact rationals `ℚ`.
  The code's arithmetic (`v*10+d`, `mantissa += d * 10**e`, `v *= 10**e`,
  `round(v, 15)`) is transcribed over `ℚ`; `round` is round-half-to-even as in
  Python.  On the values appearing in the claims the rational results coincide
  with the Python float results (the code's round-to-15-digits exists precisely
  to cancel the float noise of the power computation).
* Partial functions / raised exceptions become `Except`.
* The unbounded `while` loops are embedded with an explicit fuel argument so
  that every definition is structurally recursive and kernel-computable.  Fuel
  exhaustion is a distinguished error value; the fuel supplied by the wrappers
  exceeds the loops' actual depth (each iteration strictly advances the index /
  shortens the token list), as the concrete evaluations below demonstrate.
* Python character predicates (`str.isspace`, `str.isnumeric`,
  `unicodedata.category`, `str.lower`) are modelled exactly on the ASCII range;
  outside ASCII the model includes the single representative 'SUPERSCRIPT TWO'
  (U+00B2), for which Python's `"²".isnumeric()` is `True` (it has a Unicode
  numeric type) while `int("²")` raises `ValueError` (it is not a decimal
  digit).  Every theorem below evaluates the code only on characters on which
  the model agrees with Python.
-/

namespace PyJson

/-- Partial model of Python `str.isspace` (exact on ASCII): space, tab,
newline, carriage return, vertical tab, form feed. -/
def pyIsSpace (c : Char) : Bool :=
  c = ' ' || c = '\t' || c = '\n' || c = '\r' || c.toNat = 11 || c.toNat = 12

/-- Partial model of Python `str.isnumeric` (exact on ASCII, where it holds of
the decimal digits only): also true of SUPERSCRIPT TWO U+00B2, which carries
Unicode `Numeric_Type=Digit`, as a representative non-ASCII numeric. -/
def pyIsNumeric (c : Char) : Bool :=
  c.isDigit || c = '²'

/-- Model of Python `int(c)` on a single character: defined on decimal digits,
`ValueError` (here `none`) otherwise — in particular on `'²'`, which is
numeric but not a decimal digit. -/
def digitVal (c : Char) : Option Nat :=
  if c.isDigit then some (c.toNat - 48) else none

/-- Partial model of `unicodedata.category(c)[0] == "C"` (the lexer's
`is_unicode`): true on the Cc control characters U+0000–U+001F and
U+007F–U+009F.  (Python's test also covers format/surrogate/private-use/
unassigned characters; no input below contains any of those.) -/
def pyIsCategoryC (c : Char) : Bool :=
  c.toNat < 32 || (127 ≤ c.toNat && c.toNat ≤ 159)

/-- Partial model of Python `str.lower` on one character (exact on ASCII). -/
def pyLower (c : Char) : Char :=
  if 'A' ≤ c && c ≤ 'Z' then Char.ofNat (c.toNat + 32) else c

/-- Floor-based round-half-to-even on `ℚ`, as Python's `round` ties rule. -/
def roundHalfEven (q : ℚ) : ℤ :=
  let f : ℚ := q - ⌊q⌋
  if f < 1/2 then ⌊q⌋
  else if 1/2 < f then ⌊q⌋ + 1
  else if ⌊q⌋ % 2 = 0 then ⌊q⌋ else ⌊q⌋ + 1

/-- Model of Python `round(q, ndigits)` over the exact-rational number model:
round `q` to `ndigits` decimal places, ties to even.  On arguments that are
already exact in `ndigits` decimals it is the identity. -/
def pyRound (q : ℚ) (ndigits : Nat) : ℚ :=
  (roundHalfEven (q * 10 ^ ndigits) : ℚ) / 10 ^ ndigits

/-- `lexer.py` `Tag`: the token tag enumeration. -/
inductive Tag where
  | NUMBER | LITERAL | NULL | COMMA | OBJECT_KEY
  | LEFT_BRACE | RIGHT_BRACE | LEFT_BRACKET | RIGHT_BRACKET | BOOLEAN
deriving DecidableEq, Repr

/-- `lexer.py` tokens: `Number`, `Literal`, `ObjectKey`, `Boolean`, and the
payload-free `Token(tag)` instances for null, comma, braces and brackets. -/
inductive Token where
  | number (value : ℚ)
  | literal (lexeme : String)
  | objectKey (lexeme : String)
  | boolean (value : Bool)
  | null
  | comma
  | leftBrace
  | rightBrace
  | leftBracket
  | rightBracket
deriving DecidableEq, Repr

/-- The tag of a token (`Token.tag` in `lexer.py`). -/
def Token.tag : Token → Tag
  | .number _ => .NUMBER
  | .literal _ => .LITERAL
  | .objectKey _ => .OBJECT_KEY
  | .boolean _ => .BOOLEAN
  | .null => .NULL
  | .comma => .COMMA
  | .leftBrace => .LEFT_BRACE
  | .rightBrace => .RIGHT_BRACE
  | .leftBracket => .LEFT_BRACKET
  | .rightBracket => .RIGHT_BRACKET

/-- `lexer.py` `TokenError`: the offending character and 1-based line. -/
structure TokenError where
  character : Char
  line : Nat
deriving DecidableEq, Repr

/-- Failure of the scanner: a raised `TokenError`, a raised `ValueError` from
`int()` on a non-decimal numeric character, or fuel exhaustion of the
embedding (never reached with the fuel the wrapper supplies). -/
inductive LexError where
  | tokenError (e : TokenError)
  | valueError
  | outOfFuel
deriving DecidableEq, Repr

/-- `text[i-1]` as the lexer's catch-all error anchor uses it: for `i = 0`
Python's negative indexing wraps to the last character of the text. -/
def prevChar (cs : List Char) (i : Nat) : Char :=
  if i = 0 then cs.getD (cs.length - 1) ' ' else cs.getD (i - 1) ' '

/-- The integer-part loop of `lex` (lexer.py lines 132-135):
`while i < n and text[i].isnumeric(): v = v*10 + int(text[i]); i += 1`. -/
def scanInt (fuel : Nat) (cs : List Char) (i : Nat) (v : ℚ) :
    Except LexError (ℚ × Nat) :=
  match fuel with
  | 0 => .error .outOfFuel
  | fuel + 1 =>
    if h : i < cs.length then
      let c := cs.get ⟨i, h⟩
      if pyIsNumeric c then
        match digitVal c with
        | none => .error .valueError
        | some d => scanInt fuel cs (i + 1) (v * 10 + d)
      else .ok (v, i)
    else .ok (v, i)

/-- The fractional-part loop of `lex` (lexer.py lines 144-149), with the
decreasing exponent `e = -k`:
`while i < n and text[i].isnumeric(): mantissa += int(text[i]) * 10**e; e -= 1; i += 1`. -/
def scanFrac (fuel : Nat) (cs : List Char) (i : Nat) (k : Nat) (m : ℚ) :
    Except LexError (ℚ × Nat) :=
  match fuel with
  | 0 => .error .outOfFuel
  | fuel + 1 =>
    if h : i < cs.length then
      let c := cs.get ⟨i, h⟩
      if pyIsNumeric c then
        match digitVal c with
        | none => .error .valueError
        | some d => scanFrac fuel cs (i + 1) (k + 1) (m + d / (10 : ℚ) ^ k)
      else .ok (m, i)
    else .ok (m, i)

/-- The exponent-digits loop of `lex` (lexer.py lines 176-179):
`while i < n and text[i].isnumeric(): e = e*10 + int(text[i]); i += 1`. -/
def scanExp (fuel : Nat) (cs : List Char) (i : Nat) (e : Nat) :
    Except LexError (Nat × Nat) :=
  match fuel with
  | 0 => .error .outOfFuel
  | fuel + 1 =>
    if h : i < cs.length then
      let c := cs.get ⟨i, h⟩
      if pyIsNumeric c then
        match digitVal c with
        | none => .error .valueError
        | some d => scanExp fuel cs (i + 1) (e * 10 + d)
      else .ok (e, i)
    else .ok (e, i)

/-- The number branch of `lex` (lexer.py lines 128-190), entered with
`text[i1]` numeric; `neg` records a consumed leading `-`.  Returns the
`Number` token and the index at which the outer loop resumes.  Note the
faithful `i += 1` after the scientific-notation emit (line 189), which skips
one extra input character. -/
def lexNumber (cs : List Char) (i1 : Nat) (line : Nat) (neg : Bool) :
    Except LexError (Token × Nat) :=
  let n := cs.length
  let fuel := n + 1
  match scanInt fuel cs i1 0 with
  | .error e => .error e
  | .ok (v, i2) =>
    -- lines 137-139: not followed by "." or "e"/"E" → plain integer
    if n ≤ i2 || !(pyLower (cs.getD i2 ' ') = '.' || pyLower (cs.getD i2 ' ') = 'e') then
      .ok (.number (if neg then -v else v), i2)
    else
      -- lines 142-150: optional fractional part
      let afterFrac : Except LexError (ℚ × Nat) :=
        if cs.getD i2 ' ' = '.' then
          match scanFrac fuel cs (i2 + 1) 1 0 with
          | .error e => .error e
          | .ok (m, i3) => .ok (v + m, i3)
        else .ok (v, i2)
      match afterFrac with
      | .error e => .error e
      | .ok (v3, i3) =>
        -- lines 151-153: no exponent follows → emit
        if n ≤ i3 || pyLower (cs.getD i3 ' ') ≠ 'e' then
          .ok (.number (if neg then -v3 else v3), i3)
        else
          -- lines 155-190: scientific notation, text[i3] is 'e' or 'E'
          let i4 := i3 + 1
          if n ≤ i4 then .error (.tokenError ⟨cs.getD (i4 - 1) ' ', line⟩)
          else
            let c4 := cs.getD i4 ' '
            let signStep : Except LexError (Bool × Nat) :=
              if c4 = '-' then .ok (true, i4 + 1)
              else if c4 = '+' then .ok (false, i4 + 1)
              else if !pyIsNumeric c4 then .error (.tokenError ⟨c4, line⟩)
              else .ok (false, i4)
            match signStep with
            | .error e => .error e
            | .ok (eneg, i5) =>
              if n ≤ i5 then .error (.tokenError ⟨cs.getD (i5 - 1) ' ', line⟩)
              else
                match scanExp fuel cs i5 0 with
                | .error e => .error e
                | .ok (e, i6) =>
                  let ez : ℤ := if eneg then -(e : ℤ) else e
                  let v4 := v3 * (10 : ℚ) ^ ez
                  let v5 := if e ≠ 0 then pyRound v4 15 else v4
                  -- line 189: the extra `i += 1` after the append
                  .ok (.number (if neg then -v5 else v5), i6 + 1)

/-- The characters allowed after a backslash (lexer.py line 252). -/
def escapeChars : List Char := ['"', '\\', '/', 'b', 'f', 'n', 'r', 't', 'u']

/-- The check applied to each of the four characters after `\u`
(lexer.py line 266): `text[i].isnumeric() or text[i] in 'abcdefABCDEF'`. -/
def uEscapeCharOk (c : Char) : Bool :=
  pyIsNumeric c || c ∈ ['a', 'b', 'c', 'd', 'e', 'f', 'A', 'B', 'C', 'D', 'E', 'F']

/-- The string-scanning loop of `lex` (lexer.py lines 231-275).  `i` is the
index of the last processed character (initially the opening quote); each
iteration first advances past it, as the Python loop begins with `i += 1`.
On the closing quote the object-key lookahead tests only the immediately
following character for `':'`.  Returns the token and the resume index. -/
def lexStr (fuel : Nat) (cs : List Char) (i : Nat) (line : Nat) (buf : String) :
    Except LexError (Token × Nat) :=
  match fuel with
  | 0 => .error .outOfFuel
  | fuel + 1 =>
    let n := cs.length
    let j := i + 1
    if n ≤ j then .error (.tokenError ⟨cs.getD (j - 1) ' ', line⟩)
    else
      let c := cs.getD j ' '
      if c = '"' then
        -- lines 239-247: object key iff the very next character is ':'
        if j + 1 < n ∧ cs.getD (j + 1) ' ' = ':' then
          .ok (.objectKey buf, j + 2)
        else
          .ok (.literal buf, j + 1)
      else if c = '\\' then
        if n ≤ j + 1 then .error (.tokenError ⟨c, line⟩)
        else
          let c2 := cs.getD (j + 1) ' '
          if c2 ∉ escapeChars then .error (.tokenError ⟨c2, line⟩)
          else if c2 ≠ 'u' then
            -- lines 254-257: copy the two-character pair verbatim
            lexStr fuel cs (j + 1) line ((buf.push c).push c2)
          else
            -- lines 258-269: \u followed by exactly 4 "hex" digits, verbatim
            if n ≤ j + 5 then .error (.tokenError ⟨c, line⟩)
            else
              let d1 := cs.getD (j + 2) ' '
              let d2 := cs.getD (j + 3) ' '
              let d3 := cs.getD (j + 4) ' '
              let d4 := cs.getD (j + 5) ' '
              if !uEscapeCharOk d1 then .error (.tokenError ⟨d1, line⟩)
              else if !uEscapeCharOk d2 then .error (.tokenError ⟨d2, line⟩)
              else if !uEscapeCharOk d3 then .error (.tokenError ⟨d3, line⟩)
              else if !uEscapeCharOk d4 then .error (.tokenError ⟨d4, line⟩)
              else
                lexStr fuel cs (j + 5) line
                  (((((buf.push '\\').push 'u').push d1 |>.push d2).push d3).push d4)
      else if pyIsCategoryC c then .error (.tokenError ⟨c, line⟩)
      else lexStr fuel cs j line (buf.push c)

/-- The slice `text[i:i+len]` as a string. -/
def strSlice (cs : List Char) (i len : Nat) : String :=
  String.mk ((cs.drop i).take len)

/-- The main scanning loop of `lex` (lexer.py lines 110-289), one recursive
call per iteration of the `while i < n` loop.  The token checks appear in
source order; a `true`/`false` prefix that is long enough but mismatched
falls through to the later checks, and the final catch-all anchors the error
at `text[i-1]`. -/
def lexLoop (fuel : Nat) (cs : List Char) (i : Nat) (line : Nat)
    (acc : List Token) : Except LexError (List Token) :=
  match fuel with
  | 0 => .error .outOfFuel
  | fuel + 1 =>
    let n := cs.length
    if h : i < n then
      let c := cs.get ⟨i, h⟩
      -- lines 112-117: skip whitespace
      if pyIsSpace c then
        lexLoop fuel cs (i + 1) (if c = '\n' then line + 1 else line) acc
      else
        -- lines 119-125: leading minus, consumed; end of input after it fails
        let neg := c = '-'
        let i1 := if neg then i + 1 else i
        if neg ∧ n ≤ i1 then
          .error (.tokenError ⟨cs.getD (i1 - 1) ' ', line⟩)
        else
          let c1 := cs.getD i1 ' '
          -- lines 128-190: number
          if pyIsNumeric c1 then
            match lexNumber cs i1 line neg with
            | .error e => .error e
            | .ok (tok, i') => lexLoop fuel cs i' line (acc ++ [tok])
          -- lines 192-199: true
          else if c1 = 't' ∧ n ≤ i1 + 3 then
            .error (.tokenError ⟨c1, line⟩)
          else if c1 = 't' ∧ strSlice cs i1 4 = "true" then
            lexLoop fuel cs (i1 + 4) line (acc ++ [.boolean true])
          -- lines 201-208: false
          else if c1 = 'f' ∧ n ≤ i1 + 4 then
            .error (.tokenError ⟨c1, line⟩)
          else if c1 = 'f' ∧ strSlice cs i1 5 = "false" then
            lexLoop fuel cs (i1 + 5) line (acc ++ [.boolean false])
          -- lines 210-214: comma
          else if c1 = ',' then
            lexLoop fuel cs (i1 + 1) line (acc ++ [.comma])
          -- lines 216-221: brackets
          else if c1 = '[' then
            lexLoop fuel cs (i1 + 1) line (acc ++ [.leftBracket])
          else if c1 = ']' then
            lexLoop fuel cs (i1 + 1) line (acc ++ [.rightBracket])
          -- lines 223-228: braces
          else if c1 = '{' then
            lexLoop fuel cs (i1 + 1) line (acc ++ [.leftBrace])
          else if c1 = '}' then
            lexLoop fuel cs (i1 + 1) line (acc ++ [.rightBrace])
          -- lines 230-275: string literal / object key
          else if c1 = '"' then
            match lexStr (n + 1) cs i1 line "" with
            | .error e => .error e
            | .ok (tok, i') => lexLoop fuel cs i' line (acc ++ [tok])
          -- lines 277-285: null
          else if c1 = 'n' ∧ n ≤ i1 + 3 then
            .error (.tokenError ⟨c1, line⟩)
          else if c1 = 'n' ∧ strSlice cs i1 4 ≠ "null" then
            .error (.tokenError ⟨c1, line⟩)
          else if c1 = 'n' then
            lexLoop fuel cs (i1 + 4) line (acc ++ [.null])
          -- line 289: catch-all, anchored at the previous character
          else
            .error (.tokenError ⟨prevChar cs i1, line⟩)
    else .ok acc

/-- `lexer.py` `lex`: scan the whole text into a token list. -/
def lex (text : String) : Except LexError (List Token) :=
  lexLoop (text.data.length + 1) text.data 0 1 []

/-- The parser's output: Python `None` / `bool` / number / `str` / `list` /
`dict`.  A `dict` is modelled as its insertion-ordered association list. -/
inductive Value where
  | null
  | bool (b : Bool)
  | number (q : ℚ)
  | str (s : String)
  | array (elems : List Value)
  | object (members : List (String × Value))

/-- Python `result[key] = v` on an insertion-ordered `dict` (parser_.py line
91): if the key is present its value is replaced in place (the key keeps its
position), otherwise the pair is appended. -/
def dictInsert (m : List (String × Value)) (k : String) (v : Value) :
    List (String × Value) :=
  if m.any (fun p => p.1 = k) then
    m.map (fun p => if p.1 = k then (k, v) else p)
  else m ++ [(k, v)]

/-- Failure of the parser: `parser_.py` `ParseError` (offending token and the
expected tags — the `array`/`object` pop checks pass a bare tag in Python,
modelled as a singleton list), a Python `IndexError` from `pop()`/`[-1]` on an
empty list, or fuel exhaustion of the embedding (never reached with the fuel
`parse` supplies). -/
inductive PErr where
  | parseError (t : Token) (expected : List Tag)
  | indexError
  | outOfFuel
deriving DecidableEq, Repr

/-- The pending call of the recursive-descent parser: one constructor per
nested function of `parser_.py` `parse` (the two loop bodies of `array` and
`object_` are their own calls, carrying the accumulated result).

Order convention: Python reverses the token list once (line 118) and pops
from its end; we keep the tokens in original order and pop from the front,
which removes the same tokens in the same sequence. -/
inductive PCall where
  | structureC (ts : List Token)
  | arrayC (ts : List Token)
  | arrayLoopC (ts : List Token) (acc : List Value)
  | objectC (ts : List Token)
  | objectLoopC (ts : List Token) (acc : List (String × Value))
  | valueC (ts : List Token)

/-- One fuel-indexed interpreter for the mutually recursive functions of
`parser_.py` `parse` (lines 43-115).  Each case is the body of the
corresponding Python function; results carry the remaining token list. -/
def runP : Nat → PCall → Except PErr (Value × List Token)
  | 0, _ => .error .outOfFuel
  | fuel + 1, call =>
    match call with
    -- `structure` (lines 43-50): peek `tokens[-1]`, dispatch on its tag
    | .structureC ts =>
      match ts with
      | [] => .error .indexError
      | t :: _ =>
        if t.tag = .LEFT_BRACKET then runP fuel (.arrayC ts)
        else if t.tag = .LEFT_BRACE then runP fuel (.objectC ts)
        else .error (.parseError t [.LEFT_BRACKET, .LEFT_BRACE])
    -- `array` (lines 52-62): pop `[`, check for the empty array, else loop
    | .arrayC ts =>
      match ts with
      | [] => .error .indexError
      | t :: ts1 =>
        if t.tag ≠ .LEFT_BRACKET then .error (.parseError t [.LEFT_BRACKET])
        else
          match ts1 with
          | [] => .error .indexError
          | t1 :: ts2 =>
            if t1.tag = .RIGHT_BRACKET then .ok (.array [], ts2)
            else runP fuel (.arrayLoopC ts1 [])
    -- `array`'s `while True` loop (lines 64-73)
    | .arrayLoopC ts acc =>
      match runP fuel (.valueC ts) with
      | .error e => .error e
      | .ok (v, ts1) =>
        match ts1 with
        | [] => .error .indexError
        | t :: ts2 =>
          if t.tag = .COMMA then runP fuel (.arrayLoopC ts2 (acc ++ [v]))
          else if t.tag ≠ .RIGHT_BRACKET then .error (.parseError t [.RIGHT_BRACKET])
          else .ok (.array (acc ++ [v]), ts2)
    -- `object_` (lines 75-85): pop `{`, check for the empty object, else loop
    | .objectC ts =>
      match ts with
      | [] => .error .indexError
      | t :: ts1 =>
        if t.tag ≠ .LEFT_BRACE then .error (.parseError t [.LEFT_BRACE])
        else
          match ts1 with
          | [] => .error .indexError
          | t1 :: ts2 =>
            if t1.tag = .RIGHT_BRACE then .ok (.object [], ts2)
            else runP fuel (.objectLoopC ts1 [])
    -- `object_`'s `while True` loop (lines 87-100): `result[t.lexeme] = value(tokens)`
    | .objectLoopC ts acc =>
      match ts with
      | [] => .error .indexError
      | .objectKey s :: ts1 =>
        match runP fuel (.valueC ts1) with
        | .error e => .error e
        | .ok (v, ts2) =>
          match ts2 with
          | [] => .error .indexError
          | t2 :: ts3 =>
            if t2.tag = .COMMA then runP fuel (.objectLoopC ts3 (dictInsert acc s v))
            else if t2.tag ≠ .RIGHT_BRACE then .error (.parseError t2 [.RIGHT_BRACE])
            else .ok (.object (dictInsert acc s v), ts3)
      | t :: _ => .error (.parseError t [.OBJECT_KEY])
    -- `value` (lines 102-115): pop, push structural tokens back, else payload
    | .valueC ts =>
      match ts with
      | [] => .error .indexError
      | t :: ts1 =>
        if t.tag = .LEFT_BRACKET ∨ t.tag = .LEFT_BRACE then
          runP fuel (.structureC (t :: ts1))
        else
          match t with
          | .literal s => .ok (.str s, ts1)
          | .number q => .ok (.number q, ts1)
          | .boolean b => .ok (.bool b, ts1)
          | .null => .ok (.null, ts1)
          | t => .error (.parseError t
              [.LEFT_BRACKET, .LEFT_BRACE, .LITERAL, .NUMBER, .BOOLEAN, .NULL])

/-- `parser_.py` `structure` on a token list. -/
def structureP (fuel : Nat) (ts : List Token) : Except PErr (Value × List Token) :=
  runP fuel (.structureC ts)

/-- The fuel `parse` supplies: comfortably larger than the parser's recursion
depth, which grows by at most a few calls per consumed token. -/
def pfuel (tokens : List Token) : Nat := 4 * tokens.length + 4

/-- `parser_.py` `parse` (lines 24-118): an empty token list yields `None`
directly; otherwise the top-level `structure` runs on (a reversed copy of)
the tokens and whatever tokens it leaves unconsumed are discarded. -/
def parse (tokens : List Token) : Except PErr Value :=
  if tokens = [] then .ok .null
  else
    match structureP (pfuel tokens) tokens with
    | .error e => .error e
    | .ok (v, _) => .ok v

/-- A failure of the whole pipeline: the scanner's or the parser's. -/
inductive JsonError where
  | lexical (e : LexError)
  | structural (e : PErr)
deriving DecidableEq, Repr

/-- `__init__.py` `load_json_string`: `parse(lex(json))`, propagating either
failure. -/
def load_json_string (json : String) : Except JsonError Value :=
  match lex json with
  | .error e => .error (.lexical e)
  | .ok toks =>
    match parse toks with
    | .error e => .error (.structural e)
    | .ok v => .ok v

/-- A heap of Python list objects, for the aliasing claim about `parse`:
cell `r` holds the list value of reference `r`. -/
structure PyHeap where
  cells : List (List Token)

/-- Dereference a list object. -/
def PyHeap.read (σ : PyHeap) (r : Nat) : List Token :=
  σ.cells.getD r []

/-- Allocate a fresh list object, returning its reference. -/
def PyHeap.alloc (σ : PyHeap) (l : List Token) : PyHeap × Nat :=
  (⟨σ.cells ++ [l]⟩, σ.cells.length)

/-- Overwrite the list object behind a reference. -/
def PyHeap.write (σ : PyHeap) (r : Nat) (l : List Token) : PyHeap :=
  ⟨σ.cells.set r l⟩

/-- `parse` as the caller sees it through the heap: `tokens[::-1]` (line 118)
allocates a fresh list object holding the reversed tokens, and every
`pop`/`append`/`[-1]` inside the nested functions targets that copy, whose
final contents (the unconsumed tokens, still stored reversed; garbage on an
exception) are written back to it.  The caller's cell is never written. -/
def parseOnHeap (σ : PyHeap) (caller : Nat) : Except PErr Value × PyHeap :=
  let ts := σ.read caller
  if ts = [] then (.ok .null, σ)
  else
    let a := σ.alloc ts.reverse
    match structureP (pfuel ts) ts with
    | .error e => (.error e, a.1.write a.2 [])
    | .ok (v, rest) => (.ok v, a.1.write a.2 rest.reverse)

/-- `objOfPairs ps` is the Python dict built by executing
`result[k] = v` for each pair of `ps` in order, starting from `{}` — exactly
what `object_` does with the key/value pairs it parses. -/
def objOfPairs (ps : List (String × Value)) : List (String × Value) :=
  ps.foldl (fun m p => dictInsert m p.1 p.2) []

/-- The value attached to the last occurrence of key `k` in the pair list
`ps` (`none` if `k` never occurs). -/
def lastVal (ps : List (String × Value)) (k : String) : Option Value :=
  match ps with
  | [] => none
  | (k0, v0) :: rest =>
    match lastVal rest k with
    | some v => some v
    | none => if k = k0 then some v0 else none

/-- Look a key up in an association list (first match). -/
def lookupKey (m : List (String × Value)) (k : String) : Option Value :=
  (m.find? (fun p => p.1 = k)).map Prod.snd

/-- Keep the first occurrence of each element, given the elements already
seen. -/
def dedupFrom (seen : List String) : List String → List String
  | [] => []
  | k :: rest =>
    if k ∈ seen then dedupFrom seen rest
    else k :: dedupFrom (seen ++ [k]) rest

/-- The distinct elements of a list, in order of first occurrence. -/
def firstKeys (l : List String) : List String := dedupFrom [] l

/-- The same parser call with further tokens appended to its input. -/
def PCall.extend (extra : List Token) : PCall → PCall
  | .structureC ts => .structureC (ts ++ extra)
  | .arrayC ts => .arrayC (ts ++ extra)
  | .arrayLoopC ts acc => .arrayLoopC (ts ++ extra) acc
  | .objectC ts => .objectC (ts ++ extra)
  | .objectLoopC ts acc => .objectLoopC (ts ++ extra) acc
  | .valueC ts => .valueC (ts ++ extra)

end PyJson
namespace PyJson

/-- Keys are preserved pointwise by the in-place replacement of `dictInsert`. -/
theorem keys_map_replace (m : List (String × Value)) (k : String) (v : Value) :
    (m.map (fun p => if p.1 = k then (k, v) else p)).map Prod.fst
      = m.map Prod.fst := by
  induction m with
  | nil => rfl
  | cons p rest ih =>
    by_cases h : p.1 = k <;> simp [h, ih]

/-- Presence of a key, as `dictInsert`'s guard tests it. -/
theorem any_key_iff (m : List (String × Value)) (k : String) :
    m.any (fun p => p.1 = k) = true ↔ k ∈ m.map Prod.fst := by
  induction m with
  | nil => simp
  | cons p rest ih =>
    by_cases h : p.1 = k
    · simp [h]
    · have h' : ¬ k = p.1 := fun hk => h hk.symm
      simp [h, h', ih]

theorem keys_dictInsert (m : List (String × Value)) (k : String) (v : Value) :
    (dictInsert m k v).map Prod.fst
      = if k ∈ m.map Prod.fst then m.map Prod.fst else m.map Prod.fst ++ [k] := by
  unfold dictInsert
  by_cases h : m.any (fun p => p.1 = k) = true
  · rw [if_pos h, if_pos ((any_key_iff m k).mp h), keys_map_replace]
  · rw [if_neg h, if_neg (fun hk => h ((any_key_iff m k).mpr hk))]
    simp

theorem nodup_keys_dictInsert (m : List (String × Value)) (k : String) (v : Value)
    (h : (m.map Prod.fst).Nodup) : ((dictInsert m k v).map Prod.fst).Nodup := by
  rw [keys_dictInsert]
  by_cases hk : k ∈ m.map Prod.fst
  · rwa [if_pos hk]
  · rw [if_neg hk]
    simp [List.nodup_append, h, hk]

/-- `find?` over the in-place replacement of key `k`. -/
theorem find?_replace (m : List (String × Value)) (k k' : String) (v : Value) :
    ((m.map (fun p => if p.1 = k then (k, v) else p)).find? (fun p => p.1 = k'))
      = if k' = k then ((m.find? (fun p => p.1 = k)).map (fun _ => (k, v)))
        else m.find? (fun p => p.1 = k') := by
  induction m with
  | nil => by_cases h : k' = k <;> simp [h]
  | cons p rest ih =>
    by_cases h1 : p.1 = k
    · by_cases h2 : k' = k
      · simp [List.find?_cons, h1, h2, ih]
      · have h2' : ¬ k = k' := fun hh => h2 hh.symm
        simp [List.find?_cons, h1, h2, h2', ih]
    · by_cases h2 : k' = k
      · subst h2
        simp [List.find?_cons, h1, ih]
      · by_cases h3 : p.1 = k' <;> simp [List.find?_cons, h1, h2, h3, ih]

/-- `find?` over an appended singleton. -/
theorem find?_append_single (m : List (String × Value)) (q : String × Value)
    (k' : String) :
    ((m ++ [q]).find? (fun p => p.1 = k'))
      = match m.find? (fun p => p.1 = k') with
        | some x => some x
        | none => if q.1 = k' then some q else none := by
  induction m with
  | nil => by_cases h : q.1 = k' <;> simp [h]
  | cons p rest ih =>
    by_cases h : p.1 = k' <;> simp [List.find?_cons, h, ih]

/-- If no pair has key `k`, `find?` for `k` is `none`. -/
theorem find?_eq_none_of_not_any (m : List (String × Value)) (k : String)
    (h : ¬ m.any (fun p => p.1 = k) = true) :
    m.find? (fun p => p.1 = k) = none := by
  induction m with
  | nil => rfl
  | cons p rest ih =>
    simp only [List.any_cons, Bool.or_eq_true, not_or] at h
    have h1 : ¬ p.1 = k := by simpa using h.1
    simp [List.find?_cons, h1, ih h.2]

/-- If some pair has key `k`, `find?` for `k` finds one. -/
theorem find?_some_of_any (m : List (String × Value)) (k : String)
    (h : m.any (fun p => p.1 = k) = true) :
    ∃ x, m.find? (fun p => p.1 = k) = some x := by
  induction m with
  | nil => simp at h
  | cons p rest ih =>
    by_cases hp : p.1 = k
    · exact ⟨p, by simp [List.find?_cons, hp]⟩
    · simp only [List.any_cons, Bool.or_eq_true] at h
      rcases h with h | h
      · exact absurd (of_decide_eq_true h) hp
      · rcases ih h with ⟨x, hx⟩
        exact ⟨x, by simp [List.find?_cons, hp, hx]⟩

theorem lookup_dictInsert (m : List (String × Value)) (k k' : String) (v : Value) :
    lookupKey (dictInsert m k v) k'
      = if k' = k then some v else lookupKey m k' := by
  unfold dictInsert lookupKey
  by_cases h : m.any (fun p => p.1 = k) = true
  · rw [if_pos h, find?_replace]
    by_cases h2 : k' = k
    · rw [if_pos h2, if_pos h2]
      rcases find?_some_of_any m k h with ⟨x, hf⟩
      rw [hf]
      simp
    · rw [if_neg h2, if_neg h2]
  · rw [if_neg h, find?_append_single]
    by_cases h2 : k' = k
    · rw [if_pos h2]
      subst h2
      rw [find?_eq_none_of_not_any m k' h]
      simp
    · rw [if_neg h2]
      have h2' : ¬ k = k' := fun hh => h2 hh.symm
      rcases hf : m.find? (fun p => p.1 = k') with _ | x
      · rw [hf]
        simp [h2']
      · rw [hf]

/-- Folding `dictInsert` keeps the keys duplicate-free. -/
theorem foldl_dictInsert_nodup (ps : List (String × Value)) :
    ∀ m : List (String × Value), (m.map Prod.fst).Nodup →
      ((ps.foldl (fun m p => dictInsert m p.1 p.2) m).map Prod.fst).Nodup := by
  induction ps with
  | nil => intro m h; simpa using h
  | cons p rest ih =>
    intro m h
    exact ih (dictInsert m p.1 p.2) (nodup_keys_dictInsert m p.1 p.2 h)

/-- Folding `dictInsert` binds each key to the value of its last insertion. -/
theorem foldl_dictInsert_lookup (ps : List (String × Value)) :
    ∀ (m : List (String × Value)) (k : String),
      lookupKey (ps.foldl (fun m p => dictInsert m p.1 p.2) m) k
        = match lastVal ps k with
          | some v => some v
          | none => lookupKey m k := by
  induction ps with
  | nil => intro m k; simp [lastVal]
  | cons p rest ih =>
    intro m k
    rw [List.foldl_cons, ih]
    show _ = match lastVal ((p.1, p.2) :: rest) k with
      | some v => some v
      | none => lookupKey m k
    rcases hl : lastVal rest k with _ | v0
    · simp only [lastVal, hl]
      rw [lookup_dictInsert]
      by_cases h2 : k = p.1 <;> simp [h2]
    · simp only [lastVal, hl]

/-- Folding `dictInsert` lists the keys in first-insertion order. -/
theorem foldl_dictInsert_keys (ps : List (String × Value)) :
    ∀ m : List (String × Value),
      (ps.foldl (fun m p => dictInsert m p.1 p.2) m).map Prod.fst
        = m.map Prod.fst ++ dedupFrom (m.map Prod.fst) (ps.map Prod.fst) := by
  induction ps with
  | nil => intro m; simp [dedupFrom]
  | cons p rest ih =>
    intro m
    rw [List.foldl_cons, ih, keys_dictInsert]
    by_cases hk : p.1 ∈ m.map Prod.fst
    · rw [if_pos hk]
      simp [dedupFrom, hk]
    · rw [if_neg hk]
      simp [dedupFrom, hk]

theorem objOfPairs_nodup (ps : List (String × Value)) :
    ((objOfPairs ps).map Prod.fst).Nodup :=
  foldl_dictInsert_nodup ps [] (by simp)

theorem objOfPairs_lookup (ps : List (String × Value)) (k : String) :
    lookupKey (objOfPairs ps) k = lastVal ps k := by
  rw [objOfPairs, foldl_dictInsert_lookup]
  rcases h : lastVal ps k with _ | v <;> simp [lookupKey]

theorem objOfPairs_keys (ps : List (String × Value)) :
    (objOfPairs ps).map Prod.fst = firstKeys (ps.map Prod.fst) := by
  rw [objOfPairs, foldl_dictInsert_keys]
  simp [firstKeys]

theorem lastVal_append_single (ps : List (String × Value)) (k : String) (v : Value) :
    lastVal (ps ++ [(k, v)]) k = some v := by
  induction ps with
  | nil => simp [lastVal]
  | cons p rest ih => simp [lastVal, ih]

/-- Every object the parser's key/value loop returns is a `dictInsert` fold
over the pairs it read, continuing from the accumulator. -/
theorem objectLoop_builds (fuel : Nat) :
    ∀ (ts : List Token) (acc : List (String × Value)) (v : Value) (rest : List Token),
      runP fuel (.objectLoopC ts acc) = .ok (v, rest) →
      ∃ ps : List (String × Value),
        v = .object (ps.foldl (fun m p => dictInsert m p.1 p.2) acc) := by
  induction fuel with
  | zero => intro ts acc v rest h; simp [runP] at h
  | succ fuel ih =>
    intro ts acc v rest h
    cases ts with
    | nil => simp [runP] at h
    | cons t ts1 =>
      cases t with
      | objectKey s =>
        simp only [runP] at h
        rcases hv : runP fuel (.valueC ts1) with _ | ⟨v0, ts2⟩ <;> rw [hv] at h
        · exact absurd h (by simp)
        · cases ts2 with
          | nil => simp at h
          | cons t2 ts3 =>
            by_cases hc : t2.tag = Tag.COMMA
            · simp only [hc] at h
              simp at h
              rcases ih _ _ _ _ h with ⟨ps, hps⟩
              exact ⟨(s, v0) :: ps, by simpa using hps⟩
            · by_cases hb : t2.tag = Tag.RIGHT_BRACE
              · simp [hc, hb] at h
                exact ⟨[(s, v0)], by simp [← h.1]⟩
              · simp [hc, hb] at h
      | number q => simp [runP] at h
      | literal s => simp [runP] at h
      | boolean b => simp [runP] at h
      | null => simp [runP] at h
      | comma => simp [runP] at h
      | leftBrace => simp [runP] at h
      | rightBrace => simp [runP] at h
      | leftBracket => simp [runP] at h
      | rightBracket => simp [runP] at h

end PyJson
namespace PyJson

/-- The parser functions read only the front of the token list: a successful
run is unaffected by tokens appended behind it, which simply reappear behind
the remainder. -/
theorem runP_extend (fuel : Nat) :
    ∀ (call : PCall) (v : Value) (rest extra : List Token),
      runP fuel call = .ok (v, rest) →
      runP fuel (call.extend extra) = .ok (v, rest ++ extra) := by
  induction fuel with
  | zero => intro call v rest extra h; simp [runP] at h
  | succ fuel ih =>
    intro call v rest extra h
    cases call with
    | structureC ts =>
      cases ts with
      | nil => simp [runP] at h
      | cons t ts1 =>
        simp only [PCall.extend, List.cons_append]
        by_cases h1 : t.tag = Tag.LEFT_BRACKET
        · simp only [runP, h1] at h ⊢
          simp at h ⊢
          exact ih _ v rest extra h
        · by_cases h2 : t.tag = Tag.LEFT_BRACE
          · simp [runP, h1, h2] at h ⊢
            exact ih _ v rest extra h
          · simp [runP, h1, h2] at h
    | arrayC ts =>
      cases ts with
      | nil => simp [runP] at h
      | cons t ts1 =>
        simp only [PCall.extend, List.cons_append]
        by_cases h1 : t.tag = Tag.LEFT_BRACKET
        · cases ts1 with
          | nil => simp [runP, h1] at h
          | cons t1 ts2 =>
            by_cases h2 : t1.tag = Tag.RIGHT_BRACKET
            · simp [runP, h1, h2] at h
              obtain ⟨hv, hr⟩ := h
              subst hv
              subst hr
              simp [runP, h1, h2]
            · simp [runP, h1, h2] at h ⊢
              exact ih _ v rest extra h
        · simp [runP, h1] at h
    | objectC ts =>
      cases ts with
      | nil => simp [runP] at h
      | cons t ts1 =>
        simp only [PCall.extend, List.cons_append]
        by_cases h1 : t.tag = Tag.LEFT_BRACE
        · cases ts1 with
          | nil => simp [runP, h1] at h
          | cons t1 ts2 =>
            by_cases h2 : t1.tag = Tag.RIGHT_BRACE
            · simp [runP, h1, h2] at h
              obtain ⟨hv, hr⟩ := h
              subst hv
              subst hr
              simp [runP, h1, h2]
            · simp [runP, h1, h2] at h ⊢
              exact ih _ v rest extra h
        · simp [runP, h1] at h
    | arrayLoopC ts acc =>
      simp only [PCall.extend]
      simp only [runP] at h ⊢
      rcases hv : runP fuel (.valueC ts) with e | ⟨v0, ts1⟩ <;> rw [hv] at h
      · exact absurd h (by simp)
      · have hv2 : runP fuel (.valueC (ts ++ extra)) = .ok (v0, ts1 ++ extra) :=
          ih (.valueC ts) v0 ts1 extra hv
        rw [hv2]
        cases ts1 with
        | nil => simp at h
        | cons t ts2 =>
          simp only [List.cons_append]
          by_cases hc : t.tag = Tag.COMMA
          · simp [hc] at h ⊢
            exact ih _ v rest extra h
          · by_cases hb : t.tag = Tag.RIGHT_BRACKET
            · simp [hc, hb] at h
              obtain ⟨hv3, hr⟩ := h
              subst hv3
              subst hr
              simp [hc, hb]
            · simp [hc, hb] at h
    | objectLoopC ts acc =>
      cases ts with
      | nil => simp [runP] at h
      | cons t ts1 =>
        cases t with
        | objectKey s =>
          simp only [PCall.extend, List.cons_append]
          simp only [runP] at h ⊢
          rcases hv : runP fuel (.valueC ts1) with e | ⟨v0, ts2⟩ <;> rw [hv] at h
          · exact absurd h (by simp)
          · have hv2 : runP fuel (.valueC (ts1 ++ extra)) = .ok (v0, ts2 ++ extra) :=
              ih (.valueC ts1) v0 ts2 extra hv
            rw [hv2]
            cases ts2 with
            | nil => simp at h
            | cons t2 ts3 =>
              simp only [List.cons_append]
              by_cases hc : t2.tag = Tag.COMMA
              · simp [hc] at h ⊢
                exact ih _ v rest extra h
              · by_cases hb : t2.tag = Tag.RIGHT_BRACE
                · simp [hc, hb] at h
                  obtain ⟨hv3, hr⟩ := h
                  subst hv3
                  subst hr
                  simp [hc, hb]
                · simp [hc, hb] at h
        | number q => simp [runP] at h
        | literal s => simp [runP] at h
        | boolean b => simp [runP] at h
        | null => simp [runP] at h
        | comma => simp [runP] at h
        | leftBrace => simp [runP] at h
        | rightBrace => simp [runP] at h
        | leftBracket => simp [runP] at h
        | rightBracket => simp [runP] at h
    | valueC ts =>
      cases ts with
      | nil => simp [runP] at h
      | cons t ts1 =>
        simp only [PCall.extend, List.cons_append]
        by_cases h1 : t.tag = Tag.LEFT_BRACKET ∨ t.tag = Tag.LEFT_BRACE
        · simp only [runP, h1] at h ⊢
          simp at h ⊢
          exact ih _ v rest extra h
        · cases t with
          | literal s =>
            simp [runP, h1] at h
            obtain ⟨hv, hr⟩ := h
            subst hv
            subst hr
            simp [runP, h1]
          | number q =>
            simp [runP, h1] at h
            obtain ⟨hv, hr⟩ := h
            subst hv
            subst hr
            simp [runP, h1]
          | boolean b =>
            simp [runP, h1] at h
            obtain ⟨hv, hr⟩ := h
            subst hv
            subst hr
            simp [runP, h1]
          | null =>
            simp [runP, h1] at h
            obtain ⟨hv, hr⟩ := h
            subst hv
            subst hr
            simp [runP, h1]
          | objectKey s => simp [runP, h1] at h
          | comma => simp [runP, h1] at h
          | leftBrace => exact absurd (Or.inr rfl) h1
          | rightBrace => simp [runP, h1] at h
          | leftBracket => exact absurd (Or.inl rfl) h1
          | rightBracket => simp [runP, h1] at h

/-- More fuel never changes a successful parser run. -/
theorem runP_mono (fuel : Nat) :
    ∀ (fuel2 : Nat) (call : PCall) (v : Value) (rest : List Token),
      fuel ≤ fuel2 → runP fuel call = .ok (v, rest) →
      runP fuel2 call = .ok (v, rest) := by
  induction fuel with
  | zero => intro fuel2 call v rest hle h; simp [runP] at h
  | succ fuel ih =>
    intro fuel2 call v rest hle h
    cases fuel2 with
    | zero => exact absurd hle (by omega)
    | succ fuel3 =>
      have hle2 : fuel ≤ fuel3 := Nat.succ_le_succ_iff.mp hle
      cases call with
      | structureC ts =>
        cases ts with
        | nil => simp [runP] at h
        | cons t ts1 =>
          by_cases h1 : t.tag = Tag.LEFT_BRACKET
          · simp only [runP, h1] at h ⊢
            simp at h ⊢
            exact ih _ _ v rest hle2 h
          · by_cases h2 : t.tag = Tag.LEFT_BRACE
            · simp [runP, h1, h2] at h ⊢
              exact ih _ _ v rest hle2 h
            · simp [runP, h1, h2] at h
      | arrayC ts =>
        cases ts with
        | nil => simp [runP] at h
        | cons t ts1 =>
          by_cases h1 : t.tag = Tag.LEFT_BRACKET
          · cases ts1 with
            | nil => simp [runP, h1] at h
            | cons t1 ts2 =>
              by_cases h2 : t1.tag = Tag.RIGHT_BRACKET
              · simp [runP, h1, h2] at h ⊢
                exact h
              · simp [runP, h1, h2] at h ⊢
                exact ih _ _ v rest hle2 h
          · simp [runP, h1] at h
      | objectC ts =>
        cases ts with
        | nil => simp [runP] at h
        | cons t ts1 =>
          by_cases h1 : t.tag = Tag.LEFT_BRACE
          · cases ts1 with
            | nil => simp [runP, h1] at h
            | cons t1 ts2 =>
              by_cases h2 : t1.tag = Tag.RIGHT_BRACE
              · simp [runP, h1, h2] at h ⊢
                exact h
              · simp [runP, h1, h2] at h ⊢
                exact ih _ _ v rest hle2 h
          · simp [runP, h1] at h
      | arrayLoopC ts acc =>
        simp only [runP] at h ⊢
        rcases hv : runP fuel (.valueC ts) with e | ⟨v0, ts1⟩ <;> rw [hv] at h
        · exact absurd h (by simp)
        · rw [ih fuel3 (.valueC ts) v0 ts1 hle2 hv]
          cases ts1 with
          | nil => simp at h
          | cons t ts2 =>
            by_cases hc : t.tag = Tag.COMMA
            · simp [hc] at h ⊢
              exact ih _ _ v rest hle2 h
            · by_cases hb : t.tag = Tag.RIGHT_BRACKET
              · simp [hc, hb] at h ⊢
                exact h
              · simp [hc, hb] at h
      | objectLoopC ts acc =>
        cases ts with
        | nil => simp [runP] at h
        | cons t ts1 =>
          cases t with
          | objectKey s =>
            simp only [runP] at h ⊢
            rcases hv : runP fuel (.valueC ts1) with e | ⟨v0, ts2⟩ <;> rw [hv] at h
            · exact absurd h (by simp)
            · rw [ih fuel3 (.valueC ts1) v0 ts2 hle2 hv]
              cases ts2 with
              | nil => simp at h
              | cons t2 ts3 =>
                by_cases hc : t2.tag = Tag.COMMA
                · simp [hc] at h ⊢
                  exact ih _ _ v rest hle2 h
                · by_cases hb : t2.tag = Tag.RIGHT_BRACE
                  · simp [hc, hb] at h ⊢
                    exact h
                  · simp [hc, hb] at h
          | number q => simp [runP] at h
          | literal s => simp [runP] at h
          | boolean b => simp [runP] at h
          | null => simp [runP] at h
          | comma => simp [runP] at h
          | leftBrace => simp [runP] at h
          | rightBrace => simp [runP] at h
          | leftBracket => simp [runP] at h
          | rightBracket => simp [runP] at h
      | valueC ts =>
        cases ts with
        | nil => simp [runP] at h
        | cons t ts1 =>
          by_cases h1 : t.tag = Tag.LEFT_BRACKET ∨ t.tag = Tag.LEFT_BRACE
          · simp only [runP, h1] at h ⊢
            simp at h ⊢
            exact ih _ _ v rest hle2 h
          · cases t with
            | literal s => simp [runP, h1] at h ⊢; exact h
            | number q => simp [runP, h1] at h ⊢; exact h
            | boolean b => simp [runP, h1] at h ⊢; exact h
            | null => simp [runP, h1] at h ⊢; exact h
            | objectKey s => simp [runP, h1] at h
            | comma => simp [runP, h1] at h
            | leftBrace => exact absurd (Or.inr rfl) h1
            | rightBrace => simp [runP, h1] at h
            | leftBracket => exact absurd (Or.inl rfl) h1
            | rightBracket => simp [runP, h1] at h

end PyJson
namespace PyJson

/-- Writing any contents into the list object freshly allocated by
`alloc` leaves every previously existing cell unchanged. -/
theorem PyHeap.read_alloc_write (σ : PyHeap) (l l2 : List Token) (caller : Nat)
    (h : caller < σ.cells.length) :
    (((σ.alloc l).1).write (σ.alloc l).2 l2).read caller = σ.read caller := by
  unfold PyHeap.alloc PyHeap.write PyHeap.read
  simp only
  rw [List.getD_eq_getElem?_getD, List.getD_eq_getElem?_getD,
    List.getElem?_set_ne (by omega : σ.cells.length ≠ caller),
    List.getElem?_append, if_pos h]

/-- C1 (code bug): whitespace insensitivity fails at the scanner's object-key
lookahead.  `{"a":1}` parses to the object `{"a": 1}`, but inserting a single
space between the key's closing quote and the colon makes the very same
document fail with a lexical error at line 1: the scanner classifies `"a"` as
a plain string literal and then rejects the orphaned `:`, contrary to the
repository's own tests (`tests.py` `test_lex_object_key`,
`test_parse_object`). -/
theorem c1_whitespace_before_colon_changes_result :
    load_json_string "\x7b\"a\":1\x7d" = .ok (.object [("a", .number 1)])
    ∧ load_json_string "\x7b\"a\" :1\x7d" = .error (.lexical (.tokenError ⟨' ', 1⟩)) :=
  ⟨by with_unfolding_all rfl, by with_unfolding_all rfl⟩

/-- C2 (code bug): on the closing quote the scanner's lookahead checks only
the IMMEDIATELY following character for `:` (lexer.py line 241); it does not
skip whitespace.  A colon straight after the quote gives an `ObjectKey`, no
colon gives a `StringLiteral`, and whitespace followed by a colon gives a
`StringLiteral` and then a lexical error on the now-unclassifiable colon
(anchored at the previous character, with the line counter having advanced
over the skipped newlines). -/
theorem c2_colon_lookahead_checks_next_char_only :
    lex "\"a\":" = .ok [.objectKey "a"]
    ∧ lex "\"a\"" = .ok [.literal "a"]
    ∧ lex "\"a\" :" = .error (.tokenError ⟨' ', 1⟩)
    ∧ lex "\"a\"\n\n:" = .error (.tokenError ⟨'\n', 3⟩) :=
  ⟨by with_unfolding_all rfl, by with_unfolding_all rfl,
   by with_unfolding_all rfl, by with_unfolding_all rfl⟩

/-- C3 counterexample: the public entry operation applied to the bare number
`"1e2"` does not return 100 — the top-level grammar admits only an array or
an object, so `parse("1e2")` raises a structural error on the Number token. -/
theorem c3_counterexample_bare_number_is_structural_error :
    load_json_string "1e2" =
      .error (.structural (.parseError (.number 100) [.LEFT_BRACKET, .LEFT_BRACE])) := by
  with_unfolding_all rfl

/-- C3 (amended): the number semantics hold of the scanner's Number tokens —
`1e2` ↦ 100, `2.1e3` ↦ 2100, `3e-4` ↦ 0.0003, `-123` ↦ -123, and the exponent
marker is case-insensitive (`1E+2` ↦ 100); through the public entry the value
100 is produced when the number is legally embedded, e.g. in an array. -/
theorem c3_number_token_semantics :
    lex "1e2" = .ok [.number 100]
    ∧ lex "2.1e3" = .ok [.number 2100]
    ∧ lex "3e-4" = .ok [.number (3/10000)]
    ∧ lex "-123" = .ok [.number (-123)]
    ∧ lex "1E+2" = .ok [.number 100]
    ∧ load_json_string "[1e2 ]" = .ok (.array [.number 100]) :=
  ⟨by with_unfolding_all rfl, by with_unfolding_all rfl, by with_unfolding_all rfl,
   by with_unfolding_all rfl, by with_unfolding_all rfl, by with_unfolding_all rfl⟩

/-- C4 counterexample: an exponent sign followed by a non-digit does NOT fail:
in `"1e-x"` the digit loop accepts an empty digit sequence, the exponent is 0,
and the scanner emits `Number 1` (silently skipping the `x`). -/
theorem c4_counterexample_exponent_sign_then_nondigit_accepted :
    lex "1e-x" = .ok [.number 1] := by
  with_unfolding_all rfl

/-- C4 (amended): after `e`/`E`, end of input fails anchored at the consumed
`e`/`E`; an immediate non-digit (no sign) fails anchored at that character;
after a consumed sign only end of input fails (anchored at the sign) — a
non-digit after the sign instead yields exponent 0 with no error.  In
particular `"1e"`, `"-3e"`, `"1.0e"` each fail with a lexical error anchored
at the last consumed character. -/
theorem c4_malformed_exponent_failures :
    lex "1e" = .error (.tokenError ⟨'e', 1⟩)
    ∧ lex "-3e" = .error (.tokenError ⟨'e', 1⟩)
    ∧ lex "1.0e" = .error (.tokenError ⟨'e', 1⟩)
    ∧ lex "1ex" = .error (.tokenError ⟨'x', 1⟩)
    ∧ lex "1e-" = .error (.tokenError ⟨'-', 1⟩)
    ∧ lex "1e+" = .error (.tokenError ⟨'+', 1⟩)
    ∧ lex "1e-x" = .ok [.number 1] :=
  ⟨by with_unfolding_all rfl, by with_unfolding_all rfl, by with_unfolding_all rfl,
   by with_unfolding_all rfl, by with_unfolding_all rfl, by with_unfolding_all rfl,
   by with_unfolding_all rfl⟩

/-- C5 counterexample: the per-character check of the `\u` escape is Python's
`isnumeric` or a hex letter, not "hex digit": SUPERSCRIPT TWO (U+00B2) is not
one of `0-9a-fA-F`, yet `"\u²²²²"` is accepted and copied verbatim instead of
failing. -/
theorem c5_counterexample_nonhex_numeric_accepted :
    lex "\"\\u²²²²\"" = .ok [.literal "\\u²²²²"]
    ∧ '²'.isDigit = false
    ∧ '²' ∉ ['a', 'b', 'c', 'd', 'e', 'f', 'A', 'B', 'C', 'D', 'E', 'F'] :=
  ⟨by with_unfolding_all rfl, by decide, by decide⟩

/-- C5 (amended): `\u` must be followed by exactly 4 characters, each either
a hex letter `a-fA-F` or accepted by Python's `isnumeric` — which holds of
the decimal digits `0-9` but also of every other Unicode numeric character
(e.g. `²`).  All six-plus characters are copied verbatim into the token's
text; a character outside that set, or a closing quote arriving before four
such characters, is a lexical error. -/
theorem c5_unicode_escape_validation :
    lex "\"\\u1234\"" = .ok [.literal "\\u1234"]
    ∧ lex "\"ab\\u0F9acd\"" = .ok [.literal "ab\\u0F9acd"]
    ∧ lex "\"\\u12G4\"" = .error (.tokenError ⟨'G', 1⟩)
    ∧ lex "\"\\u123\"" = .error (.tokenError ⟨'\"', 1⟩)
    ∧ lex "\"\\u²²²²\"" = .ok [.literal "\\u²²²²"]
    ∧ (∀ c, uEscapeCharOk c
        = (pyIsNumeric c || c ∈ ['a', 'b', 'c', 'd', 'e', 'f', 'A', 'B', 'C', 'D', 'E', 'F'])) :=
  ⟨by with_unfolding_all rfl, by with_unfolding_all rfl, by with_unfolding_all rfl,
   by with_unfolding_all rfl, by with_unfolding_all rfl, fun c => rfl⟩

/-- C6: duplicate object keys — the object built by the parser's
`result[key] = value` updates has duplicate-free keys in first-insertion
order, each key bound to the value of its LAST occurrence; every object the
parser returns is such a build; and parsing `{"a":1,"a":2}` end to end yields
`{"a": 2}`. -/
theorem c6_duplicate_object_keys_last_wins :
    (∀ ps : List (String × Value),
      ((objOfPairs ps).map Prod.fst).Nodup
      ∧ (∀ k, lookupKey (objOfPairs ps) k = lastVal ps k)
      ∧ (objOfPairs ps).map Prod.fst = firstKeys (ps.map Prod.fst))
    ∧ (∀ (ps : List (String × Value)) (k : String) (v : Value),
        lastVal (ps ++ [(k, v)]) k = some v)
    ∧ (∀ (fuel : Nat) (ts : List Token) (v : Value) (rest : List Token),
        runP fuel (.objectC ts) = .ok (v, rest) → ∃ ps, v = .object (objOfPairs ps))
    ∧ load_json_string "\x7b\"a\":1,\"a\":2\x7d" = .ok (.object [("a", .number 2)]) := by
  refine ⟨fun ps => ⟨objOfPairs_nodup ps, fun k => objOfPairs_lookup ps k,
      objOfPairs_keys ps⟩,
    lastVal_append_single, ?_, by with_unfolding_all rfl⟩
  intro fuel ts v rest h
  cases fuel with
  | zero => simp [runP] at h
  | succ fuel =>
    cases ts with
    | nil => simp [runP] at h
    | cons t ts1 =>
      by_cases h1 : t.tag = Tag.LEFT_BRACE
      · cases ts1 with
        | nil => simp [runP, h1] at h
        | cons t1 ts2 =>
          by_cases h2 : t1.tag = Tag.RIGHT_BRACE
          · simp [runP, h1, h2] at h
            exact ⟨[], by simp [← h.1, objOfPairs]⟩
          · simp [runP, h1, h2] at h
            rcases objectLoop_builds fuel (t1 :: ts2) [] v rest h with ⟨ps, hps⟩
            exact ⟨ps, hps⟩
      · simp [runP, h1] at h

/-- Witness for C6: the parser run on the tokens of `{"a":1,"a":2}` returns
an object, which by the theorem is a `dictInsert` build. -/
theorem c6_duplicate_object_keys_last_wins_witness :
    ∃ ps, Value.object [("a", Value.number 2)] = .object (objOfPairs ps) :=
  c6_duplicate_object_keys_last_wins.2.2.1 9
    [.leftBrace, .objectKey "a", .number 1, .comma, .objectKey "a", .number 2, .rightBrace]
    (.object [("a", .number 2)]) []
    (by with_unfolding_all rfl)

/-- C7 counterexample: the empty token sequence is itself a complete valid
top-level document (it parses to Null), yet appending a trailing token to it
is NOT ignored — the comma becomes the document and parsing fails. -/
theorem c7_counterexample_empty_document_prefix :
    parse [] = .ok .null
    ∧ parse ([] ++ [Token.comma]) =
        .error (.parseError .comma [.LEFT_BRACKET, .LEFT_BRACE]) :=
  ⟨by with_unfolding_all rfl, by with_unfolding_all rfl⟩

/-- C7 (amended): for every NONEMPTY token sequence that parses to a value,
appending arbitrary trailing tokens leaves the result unchanged — the parser
never looks at what the top-level structure leaves unconsumed. -/
theorem c7_trailing_tokens_ignored (ts extra : List Token) (v : Value)
    (hne : ts ≠ []) (h : parse ts = .ok v) :
    parse (ts ++ extra) = .ok v := by
  unfold parse at h ⊢
  rw [if_neg hne] at h
  have hne2 : ts ++ extra ≠ [] := by
    intro hc
    exact hne (List.append_eq_nil.mp hc).1
  rw [if_neg hne2]
  unfold structureP at h ⊢
  cases hr : runP (pfuel ts) (.structureC ts) with
  | error e =>
    rw [hr] at h
    exact absurd h (by simp)
  | ok p =>
    obtain ⟨v1, rest⟩ := p
    rw [hr] at h
    simp at h
    have hle : pfuel ts ≤ pfuel (ts ++ extra) := by
      unfold pfuel
      rw [List.length_append]
      omega
    have h1 : runP (pfuel (ts ++ extra)) (.structureC ts) = .ok (v1, rest) :=
      runP_mono (pfuel ts) (pfuel (ts ++ extra)) _ v1 rest hle hr
    have h2 : runP (pfuel (ts ++ extra)) (.structureC (ts ++ extra))
        = .ok (v1, rest ++ extra) :=
      runP_extend (pfuel (ts ++ extra)) (.structureC ts) v1 rest extra h1
    rw [h2]
    simp [h]

/-- Witness for C7: `[]` followed by a stray Null token still parses to the
empty array. -/
theorem c7_trailing_tokens_ignored_witness :
    parse ([Token.leftBracket, Token.rightBracket] ++ [Token.null]) = .ok (.array []) :=
  c7_trailing_tokens_ignored [Token.leftBracket, Token.rightBracket] [Token.null]
    (.array []) (by simp) (by with_unfolding_all rfl)

/-- C8: an empty token sequence yields Null directly — `parse("")` is Null,
and so is any whitespace-only input, whose token list is empty. -/
theorem c8_empty_input_yields_null :
    parse [] = .ok .null
    ∧ lex "" = .ok []
    ∧ load_json_string "" = .ok .null
    ∧ lex " \t\n " = .ok []
    ∧ load_json_string " \t\n " = .ok .null :=
  ⟨by with_unfolding_all rfl, by with_unfolding_all rfl, by with_unfolding_all rfl,
   by with_unfolding_all rfl, by with_unfolding_all rfl⟩

/-- C9: `parse` never modifies the caller's token list: the reversal
`tokens[::-1]` allocates a fresh list object and all pops target that copy,
so after the call — returning a value or an error alike — the caller's cell
holds exactly the tokens it held before, and the result is the pure parse of
those tokens. -/
theorem c9_parse_leaves_caller_tokens_unchanged (σ : PyHeap) (caller : Nat)
    (h : caller < σ.cells.length) :
    ((parseOnHeap σ caller).2).read caller = σ.read caller
    ∧ (parseOnHeap σ caller).1 = parse (σ.read caller) := by
  unfold parseOnHeap parse
  by_cases hts : σ.read caller = []
  · simp [hts]
  · rw [if_neg hts, if_neg hts]
    cases hr : structureP (pfuel (σ.read caller)) (σ.read caller) with
    | error e => exact ⟨PyHeap.read_alloc_write σ _ _ caller h, rfl⟩
    | ok p =>
      obtain ⟨v1, rest⟩ := p
      exact ⟨PyHeap.read_alloc_write σ _ _ caller h, rfl⟩

/-- Witness for C9 on a one-cell heap holding a single comma token. -/
theorem c9_parse_leaves_caller_tokens_unchanged_witness :
    ((parseOnHeap ⟨[[Token.comma]]⟩ 0).2).read 0 = PyHeap.read ⟨[[Token.comma]]⟩ 0
    ∧ (parseOnHeap ⟨[[Token.comma]]⟩ 0).1 = parse (PyHeap.read ⟨[[Token.comma]]⟩ 0) :=
  c9_parse_leaves_caller_tokens_unchanged ⟨[[Token.comma]]⟩ 0 (by simp)

/-- C10 counterexample: a `-` followed by a character that does not begin a
number is NOT always discarded silently — when that character is whitespace
the scanner raises a lexical error instead of lexing the rest normally
(`lex(" 1")` succeeds, `lex("- 1")` does not). -/
theorem c10_counterexample_minus_then_space :
    lex "- 1" = .error (.tokenError ⟨'-', 1⟩)
    ∧ lex " 1" = .ok [.number 1] :=
  ⟨by with_unfolding_all rfl, by with_unfolding_all rfl⟩

/-- C10 (amended): a consumed `-` before a non-digit is silently discarded
and scanning continues with the later token checks of the same iteration —
so a following keyword, punctuation mark, string or null lexes normally with
no trace of the minus — but the whitespace skip is not re-run, so `-`
followed by whitespace is a lexical error. -/
theorem c10_minus_before_nonnumber_discarded :
    lex "-true" = .ok [.boolean true]
    ∧ lex "-[" = .ok [.leftBracket]
    ∧ lex "-," = .ok [.comma]
    ∧ lex "-null" = .ok [.null]
    ∧ lex "- 1" = .error (.tokenError ⟨'-', 1⟩) :=
  ⟨by with_unfolding_all rfl, by with_unfolding_all rfl, by with_unfolding_all rfl,
   by with_unfolding_all rfl, by with_unfolding_all rfl⟩

end PyJson
